import Mathlib

/-!
Shallow embedding of the social controller (src/controllers/social.ts) of the
colabs backend: the paginated feed query (getPosts), the post mutations
(likePost, commentPost, editPost), the connection mutations
(addUserSocialConnections, removeUserSocialConnections) and the explore query
(getPostData), together with proofs of the testable properties stated for them.

The document store is modelled as a list of records; `findById` is Mongoose's
`Model.findById` (ids are unique in Mongo, the model returns the first match),
and a successful `updateOne` on a fetched document replaces that document in
the store.  Route/query parameters that may be absent are `Option` values
(`none` = JavaScript `undefined`).
-/

namespace Colabs

/-- One entry of a post's `comments` array: `{ userId, comment }`
(src/controllers/social.ts line 179). -/
structure PostComment where
  userId : String
  comment : String
deriving Repr, DecidableEq

/-- A document of the Post collection, with the fields the social controller
reads or writes.  `textContent` and `imageContent` are optional in the schema;
`createdAt` is the creation timestamp the feed and explore queries sort by. -/
structure Post where
  id : String
  userId : String
  textContent : Option String
  imageContent : Option String
  tags : List String
  likes : List String
  comments : List PostComment
  createdAt : Nat
deriving Repr, DecidableEq

/-- A document of the User collection, restricted to the field the social
controller touches (`connections`). -/
structure User where
  id : String
  connections : List String
deriving Repr, DecidableEq

/-- Outcome of a request handler: a JSON success payload, or
`res.status(statusCode); throw new Error(errorMessage)`. -/
inductive HandlerResult (α : Type) where
  | ok (val : α)
  | err (status : Nat) (msg : String)
deriving Repr, DecidableEq

/-- Ascending creation-time order (`$sort { createdAt: 1 }`). -/
def createdAsc (p q : Post) : Prop := p.createdAt ≤ q.createdAt

/-- Descending creation-time order (`$sort { createdAt: -1 }`). -/
def createdDesc (p q : Post) : Prop := q.createdAt ≤ p.createdAt

instance : DecidableRel createdAsc := fun p q => Nat.decLe p.createdAt q.createdAt

instance : DecidableRel createdDesc := fun p q => Nat.decLe q.createdAt p.createdAt

instance : IsTotal Post createdAsc := ⟨fun a b => Nat.le_total a.createdAt b.createdAt⟩

instance : IsTotal Post createdDesc := ⟨fun a b => Nat.le_total b.createdAt a.createdAt⟩

instance : IsTrans Post createdAsc := ⟨fun _ _ _ h h2 => Nat.le_trans h h2⟩

instance : IsTrans Post createdDesc := ⟨fun _ _ _ h h2 => Nat.le_trans h2 h⟩

/-- `Post.findById(postId)`: Mongo ids are unique, so the lookup is the first
(and only) document whose `_id` matches. -/
def findById (store : List Post) (postId : String) : Option Post :=
  store.find? (fun p => p.id == postId)

/-- Effect on the store of `post.updateOne(...)` after `post` was fetched by
id: the matching document is replaced, everything else is untouched. -/
def replaceById : List Post → String → Post → List Post
  | [], _, _ => []
  | p :: ps, postId, newPost =>
    if p.id == postId then newPost :: ps else p :: replaceById ps postId newPost

/-- `User.findById(userId)`. -/
def findUserById (store : List User) (userId : String) : Option User :=
  store.find? (fun u => u.id == userId)

/-- Effect on the user store of `user.updateOne(...)`. -/
def replaceUserById : List User → String → User → List User
  | [], _, _ => []
  | u :: us, userId, newUser =>
    if u.id == userId then newUser :: us else u :: replaceUserById us userId newUser

/-- The `updatedLikes` computation of likePost (lines 138-148): if the post's
likes contain the caller's id, rebuild the array with a forEach/push loop that
skips every occurrence of that id; otherwise push the id onto the array. -/
def likeToggle (likes : List String) (userId : String) : List String :=
  if likes.contains userId then
    likes.foldl (fun acc likedUserId => if likedUserId ≠ userId then acc ++ [likedUserId] else acc) []
  else
    likes ++ [userId]

/-- likePost (lines 130-160).  The `updateOne` call is modelled as succeeding
(the 500 "Failed to like post" branch is store-failure handling, out of the
store model). -/
def likePost (store : List Post) (postId userId : String) :
    HandlerResult Unit × List Post :=
  match findById store postId with
  | some post =>
    (HandlerResult.ok (), replaceById store postId { post with likes := likeToggle post.likes userId })
  | none => (HandlerResult.err 404 "Post not found", store)

/-- commentPost (lines 167-192): `comments: [...post.comments, { userId, comment }]`. -/
def commentPost (store : List Post) (postId userId comment : String) :
    HandlerResult Unit × List Post :=
  match findById store postId with
  | some post =>
    (HandlerResult.ok (),
      replaceById store postId { post with comments := post.comments ++ [⟨userId, comment⟩] })
  | none => (HandlerResult.err 404 "Post not found", store)

/-- editPost (lines 199-228): `updateOne({ textContent, imageContent, tags: tags.split(',') })`.
Mongoose drops update keys whose value is `undefined` when casting the update,
so an absent `textContent`/`imageContent` in the body leaves the stored field
unchanged (`Option.or` keeps the old value exactly when the new one is `none`). -/
def editPost (store : List Post) (postId : String)
    (textContent imageContent : Option String) (tags : String) :
    HandlerResult Unit × List Post :=
  match findById store postId with
  | some post =>
    (HandlerResult.ok (),
      replaceById store postId
        { post with
          textContent := textContent.or post.textContent
          imageContent := imageContent.or post.imageContent
          tags := tags.splitOn "," })
  | none => (HandlerResult.err 404 "Post not found", store)

/-- addUserSocialConnections (lines 259-283):
`connections: [...user.connections, otherUserId]`. -/
def addUserSocialConnections (store : List User) (userId otherUserId : String) :
    HandlerResult Unit × List User :=
  match findUserById store userId with
  | some user =>
    (HandlerResult.ok (),
      replaceUserById store userId { user with connections := user.connections ++ [otherUserId] })
  | none => (HandlerResult.err 404 "User not found", store)

/-- removeUserSocialConnections (lines 290-315):
`user.connections.filter((userConnectionId) => userConnectionId !== otherUserId)`. -/
def removeUserSocialConnections (store : List User) (userId otherUserId : String) :
    HandlerResult Unit × List User :=
  match findUserById store userId with
  | some user =>
    (HandlerResult.ok (),
      replaceUserById store userId
        { user with connections := user.connections.filter (fun c => c != otherUserId) })
  | none => (HandlerResult.err 404 "User not found", store)

/-- The `$sort { createdAt: order === 'asc' ? 1 : -1 }` stage of the feed
aggregation.  The preceding `$lookup`/`$unwind` (with
`preserveNullAndEmptyArrays: true`) and `$project` stages only decorate each
post with an author summary, dropping and duplicating nothing, so they do not
change which posts flow through or their count and are not modelled. -/
def sortByCreatedAt (order : Bool) (store : List Post) : List Post :=
  if order then store.insertionSort createdAsc else store.insertionSort createdDesc

/-- The JSON body built by getPosts (`filters` echo omitted). -/
structure FeedResponse where
  data : List Post
  total : Nat
  hasNextPage : Bool
deriving Repr, DecidableEq

/-- getPosts (lines 11-93).  `start` and `limit` are the (numeric values of
the) query parameters, `none` when absent; `order` is `true` for 'asc'.

JavaScript arithmetic carried over faithfully:
* `$skip: Number(start * limit) || 0` — the product when both parameters are
  present (a zero product still yields 0), and 0 when either is absent
  (`undefined` makes the product `NaN`, and `NaN || 0` is 0);
* `$limit: Number(limit) || 10` — 10 when `limit` is absent or zero;
* `hasNextPage = total > Number(start * limit) + Number(limit)` — with an
  absent `start` or `limit` the right-hand side is `NaN` and the comparison is
  false;
* `total` is the `$group`/count facet over the whole collection, i.e. the
  store size (and `data[0].total[0]?.count || 0` makes the empty store 0). -/
def getPosts (store : List Post) (start limit : Option Nat) (order : Bool) : FeedResponse :=
  let startTimesLimit : Option Nat :=
    match start, limit with
    | some s, some l => some (s * l)
    | _, _ => none
  { data := ((sortByCreatedAt order store).drop (startTimesLimit.getD 0)).take
      (match limit with
       | some l => if l = 0 then 10 else l
       | none => 10)
    total := store.length
    hasNextPage :=
      match start, limit with
      | some s, some l => decide (store.length > s * l + l)
      | _, _ => false }

/-- The guard `postTag !== null` of getPostData (lines 325-328): an Express
route parameter is a string when supplied and `undefined` when absent, never
`null`, so the comparison is true in both cases and the else branch is dead. -/
def tagNeNull (_postTag : Option String) : Bool := true

/-- The Mongo filter `{ tags: { $in: [postTag] } }`: membership of the tag in
the post's tags array.  When `postTag` is `undefined` Mongoose casts the `$in`
entry to `null`, which matches no document whose `tags` is an array of
strings. -/
def matchesTag (postTag : Option String) (p : Post) : Bool :=
  match postTag with
  | some t => p.tags.contains t
  | none => false

/-- The truthiness test `if (posts)` of getPostData: `find()` resolves to an
array, and a JavaScript array is truthy even when empty. -/
def findResultTruthy (_posts : List Post) : Bool := true

/-- getPostData (lines 322-346): filter by tag, sort by creation time
descending, take 10; answer 404 "Tag not found" / 204 "No Content Available"
only if the query result is falsy. -/
def getPostData (store : List Post) (postTag : Option String) : HandlerResult (List Post) :=
  let posts :=
    if tagNeNull postTag then
      ((store.filter (matchesTag postTag)).insertionSort createdDesc).take 10
    else
      (store.insertionSort createdDesc).take 10
  if findResultTruthy posts then
    HandlerResult.ok posts
  else
    HandlerResult.err (if tagNeNull postTag then 404 else 204)
      (if tagNeNull postTag then "Tag not found" else "No Content Available")

/-- A concrete post used to evaluate the theorems on concrete inputs. -/
def post1 : Post :=
  { id := "p1", userId := "u1", textContent := some "hello", imageContent := none,
    tags := ["a"], likes := [], comments := [], createdAt := 1 }

/-- A post of the 15-post feed store, with creation time `i`. -/
def feedPost (i : Nat) : Post :=
  { id := "p", userId := "u", textContent := none, imageContent := none,
    tags := [], likes := [], comments := [], createdAt := i }

/-- A store of 15 posts with distinct creation times. -/
def store15 : List Post := (List.range 15).map feedPost

/-- A concrete user used to evaluate the theorems on concrete inputs. -/
def user1 : User := { id := "u1", connections := ["c1"] }

/-- The explore query as the specification words it: with a tag, the 10 most
recent posts matching the tag; with no tag given, the 10 most recent posts
overall, both sorted by creation time descending.  Stated from the spec's
words for comparison with getPostData. -/
def exploreClaimed (store : List Post) (postTag : Option String) : List Post :=
  match postTag with
  | some t => ((store.filter (fun p => p.tags.contains t)).insertionSort createdDesc).take 10
  | none => (store.insertionSort createdDesc).take 10

/-- Looking an id up after replacing the document fetched under that id finds
the replacement, provided the replacement keeps the id. -/
theorem findById_replaceById (store : List Post) (postId : String) (post q : Post)
    (h : findById store postId = some post) (hq : (q.id == postId) = true) :
    findById (replaceById store postId q) postId = some q := by
  induction store with
  | nil => simp [findById] at h
  | cons p ps ih =>
    show findById (if p.id == postId then q :: ps else p :: replaceById ps postId q) postId = some q
    by_cases hp : (p.id == postId) = true
    · rw [if_pos hp]
      exact List.find?_cons_of_pos ps hq
    · rw [if_neg hp]
      have hstep : findById (p :: replaceById ps postId q) postId
          = findById (replaceById ps postId q) postId := List.find?_cons_of_neg _ hp
      rw [hstep]
      apply ih
      have hh : findById (p :: ps) postId = findById ps postId := List.find?_cons_of_neg _ hp
      rwa [hh] at h

/-- The user-store analogue of findById_replaceById. -/
theorem findUserById_replaceUserById (store : List User) (userId : String) (user q : User)
    (h : findUserById store userId = some user) (hq : (q.id == userId) = true) :
    findUserById (replaceUserById store userId q) userId = some q := by
  induction store with
  | nil => simp [findUserById] at h
  | cons u us ih =>
    show findUserById (if u.id == userId then q :: us else u :: replaceUserById us userId q) userId
      = some q
    by_cases hu : (u.id == userId) = true
    · rw [if_pos hu]
      exact List.find?_cons_of_pos us hq
    · rw [if_neg hu]
      have hstep : findUserById (u :: replaceUserById us userId q) userId
          = findUserById (replaceUserById us userId q) userId := List.find?_cons_of_neg _ hu
      rw [hstep]
      apply ih
      have hh : findUserById (u :: us) userId = findUserById us userId := List.find?_cons_of_neg _ hu
      rwa [hh] at h

/-- The forEach/push loop of likePost builds exactly the filtered array. -/
theorem foldl_push_filter (userId : String) (l acc : List String) :
    l.foldl (fun acc likedUserId => if likedUserId ≠ userId then acc ++ [likedUserId] else acc) acc
      = acc ++ l.filter (fun x => x != userId) := by
  induction l generalizing acc with
  | nil => simp
  | cons x xs ih =>
    rw [List.foldl_cons, ih]
    by_cases hx : x = userId
    · simp [hx]
    · simp [hx, List.filter_cons]

/-- likeToggle, characterised the way the spec words it: remove all
occurrences of the caller's id when present, append it once otherwise. -/
theorem likeToggle_eq (likes : List String) (userId : String) :
    likeToggle likes userId =
      if userId ∈ likes then likes.filter (fun x => x != userId) else likes ++ [userId] := by
  unfold likeToggle
  by_cases hm : userId ∈ likes
  · rw [if_pos (List.elem_iff.mpr hm), if_pos hm, foldl_push_filter, List.nil_append]
  · rw [if_neg (fun hc => hm (List.elem_iff.mp hc)), if_neg hm]

/-- One likePost step on a post that exists: the handler answers ok and
replaces the post with its toggled-likes version. -/
theorem likePost_found (store : List Post) (postId userId : String) (post : Post)
    (h : findById store postId = some post) :
    likePost store postId userId
      = (HandlerResult.ok (),
          replaceById store postId { post with likes := likeToggle post.likes userId }) := by
  unfold likePost
  rw [h]

/-- Claim C2: a single likePost call on an existing post rewrites its likes to
the original likes with all occurrences of the caller's id removed when the id
was present, and to the original likes with the id appended once at the end
otherwise. -/
theorem likePost_single_toggle (store : List Post) (postId userId : String) (post : Post)
    (h : findById store postId = some post) :
    ∃ store2, likePost store postId userId = (HandlerResult.ok (), store2) ∧
      findById store2 postId =
        some { post with likes :=
          if userId ∈ post.likes then post.likes.filter (fun x => x != userId)
          else post.likes ++ [userId] } := by
  have hid := List.find?_some h
  refine ⟨replaceById store postId { post with likes := likeToggle post.likes userId },
    likePost_found store postId userId post h, ?_⟩
  rw [findById_replaceById store postId post
    { post with likes := likeToggle post.likes userId } h hid, likeToggle_eq]

/-- Witness for likePost_single_toggle at a concrete store. -/
theorem likePost_single_toggle_witness :
    ∃ store2, likePost [post1] "p1" "u9" = (HandlerResult.ok (), store2) ∧
      findById store2 "p1" =
        some { post1 with likes :=
          if "u9" ∈ post1.likes then post1.likes.filter (fun x => x != "u9")
          else post1.likes ++ ["u9"] } :=
  likePost_single_toggle [post1] "p1" "u9" post1 rfl

/-- Claim C3: when the caller's id is absent from the likes, two sequential
likePost calls (the second reading the first's output store) leave the post,
its likes included, as it was before the first call. -/
theorem likePost_twice_restores (store : List Post) (postId userId : String) (post : Post)
    (h : findById store postId = some post) (hu : userId ∉ post.likes) :
    findById (likePost (likePost store postId userId).2 postId userId).2 postId = some post := by
  have hid := List.find?_some h
  have htoggle1 : likeToggle post.likes userId = post.likes ++ [userId] := by
    rw [likeToggle_eq, if_neg hu]
  have hfind1 : findById (likePost store postId userId).2 postId
      = some { post with likes := post.likes ++ [userId] } := by
    rw [likePost_found store postId userId post h]
    show findById
      (replaceById store postId { post with likes := likeToggle post.likes userId }) postId = _
    rw [htoggle1]
    exact findById_replaceById store postId post { post with likes := post.likes ++ [userId] } h hid
  have hfilter : post.likes.filter (fun x => x != userId) = post.likes :=
    List.filter_eq_self.mpr (fun a ha => bne_iff_ne.mpr (fun he => hu (he ▸ ha)))
  have htoggle2 : likeToggle (post.likes ++ [userId]) userId = post.likes := by
    rw [likeToggle_eq, if_pos (List.mem_append_right post.likes (List.mem_singleton_self userId)),
      List.filter_append, hfilter]
    simp
  rw [likePost_found (likePost store postId userId).2 postId userId
    { post with likes := post.likes ++ [userId] } hfind1]
  show findById (replaceById (likePost store postId userId).2 postId
    { post with likes := likeToggle (post.likes ++ [userId]) userId }) postId = some post
  rw [htoggle2]
  exact findById_replaceById (likePost store postId userId).2 postId
    { post with likes := post.likes ++ [userId] } post hfind1 hid

/-- Witness for likePost_twice_restores at a concrete store. -/
theorem likePost_twice_restores_witness :
    findById (likePost (likePost [post1] "p1" "u9").2 "p1" "u9").2 "p1" = some post1 :=
  likePost_twice_restores [post1] "p1" "u9" post1 rfl (by decide)

/-- Claim C7: likePost, commentPost and editPost on a postId that resolves to
no post answer 404 "Post not found" and leave the store unchanged. -/
theorem missing_post_404 (store : List Post) (postId userId comment tags : String)
    (textContent imageContent : Option String) (h : findById store postId = none) :
    likePost store postId userId = (HandlerResult.err 404 "Post not found", store) ∧
    commentPost store postId userId comment = (HandlerResult.err 404 "Post not found", store) ∧
    editPost store postId textContent imageContent tags
      = (HandlerResult.err 404 "Post not found", store) := by
  unfold likePost commentPost editPost
  rw [h]
  exact ⟨rfl, rfl, rfl⟩

/-- Witness for missing_post_404 on the empty store. -/
theorem missing_post_404_witness :
    likePost [] "x" "u" = (HandlerResult.err 404 "Post not found", []) ∧
    commentPost [] "x" "u" "hi" = (HandlerResult.err 404 "Post not found", []) ∧
    editPost [] "x" (some "t") none "a,b" = (HandlerResult.err 404 "Post not found", []) :=
  missing_post_404 [] "x" "u" "hi" "a,b" (some "t") none rfl

/-- Claim C5: commentPost on an existing post appends exactly one
{author, text} entry at the end of the comments, preserving all prior entries
in their order. -/
theorem commentPost_appends (store : List Post) (postId userId comment : String) (post : Post)
    (h : findById store postId = some post) :
    ∃ store2, commentPost store postId userId comment = (HandlerResult.ok (), store2) ∧
      ∃ p2, findById store2 postId = some p2 ∧
        p2.comments = post.comments ++ [⟨userId, comment⟩] := by
  have hid := List.find?_some h
  refine ⟨replaceById store postId
    { post with comments := post.comments ++ [⟨userId, comment⟩] }, ?_, ?_⟩
  · unfold commentPost
    rw [h]
  · exact ⟨_, findById_replaceById store postId post _ h hid, rfl⟩

/-- Witness for commentPost_appends at a concrete store. -/
theorem commentPost_appends_witness :
    ∃ store2, commentPost [post1] "p1" "u9" "nice" = (HandlerResult.ok (), store2) ∧
      ∃ p2, findById store2 "p1" = some p2 ∧
        p2.comments = post1.comments ++ [⟨"u9", "nice"⟩] :=
  commentPost_appends [post1] "p1" "u9" "nice" post1 rfl

/-- Claim C4: editPost on an existing post, with both optional body fields
supplied, replaces textContent, imageContent and the comma-split tags, and
leaves likes and comments unchanged. -/
theorem editPost_replaces (store : List Post) (postId : String) (post : Post)
    (newText newImage tags : String) (h : findById store postId = some post) :
    ∃ store2, editPost store postId (some newText) (some newImage) tags
        = (HandlerResult.ok (), store2) ∧
      ∃ p2, findById store2 postId = some p2 ∧
        p2.textContent = some newText ∧
        p2.imageContent = some newImage ∧
        p2.tags = tags.splitOn "," ∧
        p2.likes = post.likes ∧
        p2.comments = post.comments := by
  have hid := List.find?_some h
  refine ⟨replaceById store postId
    { post with
      textContent := (some newText).or post.textContent
      imageContent := (some newImage).or post.imageContent
      tags := tags.splitOn "," }, ?_, ?_⟩
  · unfold editPost
    rw [h]
  · exact ⟨_, findById_replaceById store postId post _ h hid, rfl, rfl, rfl, rfl, rfl⟩

/-- Witness for editPost_replaces at a concrete store. -/
theorem editPost_replaces_witness :
    ∃ store2, editPost [post1] "p1" (some "t2") (some "i2") "x,y"
        = (HandlerResult.ok (), store2) ∧
      ∃ p2, findById store2 "p1" = some p2 ∧
        p2.textContent = some "t2" ∧
        p2.imageContent = some "i2" ∧
        p2.tags = "x,y".splitOn "," ∧
        p2.likes = post1.likes ∧
        p2.comments = post1.comments :=
  editPost_replaces [post1] "p1" post1 "t2" "i2" "x,y" rfl

/-- Claim C6: when the target id is absent from the user's connections,
addUserSocialConnections followed by removeUserSocialConnections (the remove
reading the add's output store) restores the original connections. -/
theorem connection_add_remove_restores (store : List User) (userId otherUserId : String)
    (user : User) (h : findUserById store userId = some user)
    (hno : otherUserId ∉ user.connections) :
    findUserById (removeUserSocialConnections
        (addUserSocialConnections store userId otherUserId).2 userId otherUserId).2 userId
      = some user := by
  have hid := List.find?_some h
  have hadd : (addUserSocialConnections store userId otherUserId).2
      = replaceUserById store userId
          { user with connections := user.connections ++ [otherUserId] } := by
    unfold addUserSocialConnections
    rw [h]
  have hfind1 : findUserById (addUserSocialConnections store userId otherUserId).2 userId
      = some { user with connections := user.connections ++ [otherUserId] } := by
    rw [hadd]
    exact findUserById_replaceUserById store userId user _ h hid
  have hkeep : user.connections.filter (fun c => c != otherUserId) = user.connections :=
    List.filter_eq_self.mpr (fun a ha => bne_iff_ne.mpr (fun he => hno (he ▸ ha)))
  have hfilter : (user.connections ++ [otherUserId]).filter (fun c => c != otherUserId)
      = user.connections := by
    rw [List.filter_append, hkeep]
    simp
  unfold removeUserSocialConnections
  rw [hfind1]
  show findUserById (replaceUserById (addUserSocialConnections store userId otherUserId).2 userId
      { user with
        connections := (user.connections ++ [otherUserId]).filter (fun c => c != otherUserId) })
    userId = some user
  rw [hfilter]
  exact findUserById_replaceUserById (addUserSocialConnections store userId otherUserId).2 userId
    { user with connections := user.connections ++ [otherUserId] } user hfind1 hid

/-- Witness for connection_add_remove_restores at a concrete store. -/
theorem connection_add_remove_restores_witness :
    findUserById (removeUserSocialConnections
        (addUserSocialConnections [user1] "u1" "u2").2 "u1" "u2").2 "u1" = some user1 :=
  connection_add_remove_restores [user1] "u1" "u2" user1 rfl (by decide)

/-- Claim C1: for any store, any page index and any valid page size
(limit ≥ 1), the feed returns at most limit posts, reports total as the size
of the whole store, and reports hasNextPage exactly when
total > start*limit + limit. -/
theorem getPosts_pagination (store : List Post) (s l : Nat) (order : Bool) (hl : 0 < l) :
    (getPosts store (some s) (some l) order).data.length ≤ l ∧
    (getPosts store (some s) (some l) order).total = store.length ∧
    ((getPosts store (some s) (some l) order).hasNextPage = true ↔
      store.length > s * l + l) := by
  refine ⟨?_, rfl, ?_⟩
  · show (((sortByCreatedAt order store).drop (s * l)).take (if l = 0 then 10 else l)).length ≤ l
    rw [if_neg (Nat.pos_iff_ne_zero.mp hl)]
    exact List.length_take_le l ((sortByCreatedAt order store).drop (s * l))
  · show decide (store.length > s * l + l) = true ↔ store.length > s * l + l
    exact decide_eq_true_iff

/-- Witness for getPosts_pagination at a concrete store. -/
theorem getPosts_pagination_witness :
    0 < 2 ∧
    ((getPosts [post1] (some 0) (some 2) false).data.length ≤ 2 ∧
     (getPosts [post1] (some 0) (some 2) false).total = [post1].length ∧
     ((getPosts [post1] (some 0) (some 2) false).hasNextPage = true ↔
       [post1].length > 0 * 2 + 2)) :=
  ⟨Nat.zero_lt_two, getPosts_pagination [post1] 0 2 false Nat.zero_lt_two⟩

/-- Claim C9 counterexample: the claim predicts the same response after
substituting the defaults.  With one post and start = limit = 0, the feed
reports hasNextPage true while the defaulted call (start 0, limit 10) reports
false; with 15 posts, start 1 and limit absent, the feed skips nothing and
returns 10 posts while the defaulted call returns the 5 posts after skipping
10 — so neither response matches its defaulted counterpart. -/
theorem getPosts_defaults_counterexample :
    (getPosts [post1] (some 0) (some 0) false).hasNextPage = true ∧
    (getPosts [post1] (some 0) (some 10) false).hasNextPage = false ∧
    (getPosts store15 (some 1) none false).data.length = 10 ∧
    (getPosts store15 (some 1) (some 10) false).data.length = 5 := by
  refine ⟨rfl, rfl, ?_, ?_⟩ <;> decide

/-- Claim C9 (amended): when start is missing or zero and limit is missing or
zero, the feed's posts and total equal those of the defaulted call (start 0,
limit 10); hasNextPage, however, is computed from the raw parameters (false
when either is missing, total > 0 when both are literally zero) and may
differ, and when only one parameter is missing or zero even the returned
posts can differ, because a missing or zero limit forces the skip to 0
regardless of start. -/
theorem getPosts_defaults_amended (store : List Post) (order : Bool) (start limit : Option Nat)
    (hs : start = none ∨ start = some 0) (hl : limit = none ∨ limit = some 0) :
    (getPosts store start limit order).data = (getPosts store (some 0) (some 10) order).data ∧
    (getPosts store start limit order).total = (getPosts store (some 0) (some 10) order).total := by
  rcases hs with rfl | rfl <;> rcases hl with rfl | rfl <;> exact ⟨rfl, rfl⟩

/-- Witness for getPosts_defaults_amended at a concrete store. -/
theorem getPosts_defaults_amended_witness :
    (getPosts [post1] none (some 0) false).data
        = (getPosts [post1] (some 0) (some 10) false).data ∧
    (getPosts [post1] none (some 0) false).total
        = (getPosts [post1] (some 0) (some 10) false).total :=
  getPosts_defaults_amended [post1] false none (some 0) (Or.inl rfl) (Or.inr rfl)

/-- Claim C8 counterexample: on a one-post store with no tag given, getPostData
answers the empty list, while the 10 most recent posts overall (what the claim
predicts) are the whole store. -/
theorem getPostData_noTag_counterexample :
    getPostData [post1] none = HandlerResult.ok [] ∧
    exploreClaimed [post1] none = [post1] ∧
    HandlerResult.ok ([] : List Post) ≠ HandlerResult.ok [post1] := by
  exact ⟨rfl, rfl, by decide⟩

/-- Claim C8 (amended): with a tag given, getPostData answers the 10 most
recent posts whose tags contain the tag, sorted by creation time descending:
all matching posts when fewer than 10 match, each answered post is a stored
post carrying the tag, the answer is pairwise descending in creation time, and
any matching stored post not answered is no more recent than every answered
one.  With no tag given the parameter is undefined, not null, so the source's
null check still selects the tag branch and the query filters on a null tag:
the answer is ok with the empty list, not the 10 most recent posts overall. -/
theorem getPostData_explore_amended (store : List Post) (t : String) (r : List Post)
    (h : getPostData store (some t) = HandlerResult.ok r) :
    (r.length = min 10 (store.filter (matchesTag (some t))).length ∧
     (∀ p ∈ r, p ∈ store ∧ p.tags.contains t = true) ∧
     r.Pairwise createdDesc ∧
     (∀ p ∈ store, p.tags.contains t = true →
        p ∈ r ∨ ∀ q ∈ r, p.createdAt ≤ q.createdAt)) ∧
    getPostData store none = HandlerResult.ok [] := by
  have hr : r
      = ((store.filter (matchesTag (some t))).insertionSort createdDesc).take 10 := by
    have h2 : HandlerResult.ok
        (((store.filter (matchesTag (some t))).insertionSort createdDesc).take 10)
        = HandlerResult.ok r := h
    exact (HandlerResult.ok.inj h2).symm
  have hsorted : ((store.filter (matchesTag (some t))).insertionSort createdDesc).Pairwise
      createdDesc :=
    List.sorted_insertionSort createdDesc (store.filter (matchesTag (some t)))
  refine ⟨⟨?_, ?_, ?_, ?_⟩, ?_⟩
  · rw [hr, List.length_take, List.length_insertionSort]
  · intro p hp
    rw [hr] at hp
    have hpf : p ∈ store.filter (matchesTag (some t)) :=
      (List.mem_insertionSort createdDesc).mp (List.take_subset 10 _ hp)
    exact List.mem_filter.mp hpf
  · rw [hr]
    exact hsorted.sublist (List.take_sublist 10 _)
  · intro p hpstore hptag
    have hpf : p ∈ store.filter (matchesTag (some t)) :=
      List.mem_filter.mpr ⟨hpstore, hptag⟩
    have hps : p ∈ (store.filter (matchesTag (some t))).insertionSort createdDesc :=
      (List.mem_insertionSort createdDesc).mpr hpf
    rw [← List.take_append_drop 10
      ((store.filter (matchesTag (some t))).insertionSort createdDesc)] at hps
    have hsplit := List.pairwise_append.mp (by
      rw [List.take_append_drop 10
        ((store.filter (matchesTag (some t))).insertionSort createdDesc)]
      exact hsorted)
    rcases List.mem_append.mp hps with h1 | h2
    · exact Or.inl (hr ▸ h1)
    · refine Or.inr (fun q hq => ?_)
      exact hsplit.2.2 q (hr ▸ hq) p h2
  · have hnil : store.filter (matchesTag none) = [] :=
      List.filter_eq_nil_iff.mpr (fun a _ => by simp [matchesTag])
    show HandlerResult.ok (((store.filter (matchesTag none)).insertionSort createdDesc).take 10)
      = HandlerResult.ok []
    rw [hnil]
    rfl

/-- Witness for getPostData_explore_amended at a concrete store. -/
theorem getPostData_explore_amended_witness :
    (([post1] : List Post).length
        = min 10 (([post1] : List Post).filter (matchesTag (some "a"))).length ∧
     (∀ p ∈ ([post1] : List Post), p ∈ ([post1] : List Post) ∧ p.tags.contains "a" = true) ∧
     ([post1] : List Post).Pairwise createdDesc ∧
     (∀ p ∈ ([post1] : List Post), p.tags.contains "a" = true →
        p ∈ ([post1] : List Post) ∨ ∀ q ∈ ([post1] : List Post), p.createdAt ≤ q.createdAt)) ∧
    getPostData [post1] none = HandlerResult.ok [] :=
  getPostData_explore_amended [post1] "a" [post1] rfl

/-- Claim C10: getPostData always answers success with the (possibly empty)
list of matching posts; its 404 "Tag not found" / 204 "No Content Available"
branch is unreachable because a find() result is an array and arrays are
truthy. -/
theorem getPostData_never_errors (store : List Post) (postTag : Option String) :
    ∃ posts, getPostData store postTag = HandlerResult.ok posts :=
  ⟨((store.filter (matchesTag postTag)).insertionSort createdDesc).take 10, rfl⟩

end Colabs
